import Mathlib

/-!
Verification of the BSNexus task-execution pipeline.

This file gives a shallow embedding of the core components of the backend and
worker sources:

* the task state machine (backend/src/core/state_machine.py),
* the task repository dependency queries (backend/src/repositories/task_repository.py),
* the transition API endpoint (backend/src/api/tasks.py),
* the PM orchestrator results loop (backend/src/core/orchestrator.py),
* the worker consumer (worker/src/consumer.py),
* the prompt signer (backend/src/core/prompt_security.py),

together with theorems settling the specification's claims about them.

Modelling conventions:

* The database session is modelled as an explicit `DB` state (task rows,
  history rows, published stream messages, board events); each transition
  either returns the next state (`Except.ok`) or raises (`Except.error`),
  in which case the caller's state is untouched, mirroring that the Python
  code raises `ValueError` before any mutation and the surrounding DB
  transaction rolls back.
* UUIDs are modelled as `Nat` identifiers; wall-clock time as an `Int`
  threaded explicitly into the functions that call `datetime.now` /
  `time.time`.
* The state machine is embedded in the configuration the API layer builds
  (`TaskStateMachine()` at backend/src/api/tasks.py line 18 and
  backend/src/api/pm.py line 57): `git_ops = None` and
  `prompt_signer = None`, so the git-commit/revert branches and the
  signed-prompt attachment branches of the side effects are the `None`
  branches of the source.
* HMAC-SHA256 is abstracted as an arbitrary function parameter
  `mac : String → String → String`; the claims proved here depend only on
  the MAC being recomputed deterministically, not on collision resistance.
-/

namespace BSNexus

/-- Task status enum, from backend/src/models.py (`TaskStatus`). -/
inductive TaskStatus where
  | waiting
  | ready
  | queued
  | in_progress
  | review
  | done
  | rejected
  | blocked
deriving DecidableEq

/-- String value of a status, as stored by the `str` enum in models.py. -/
def statusValue : TaskStatus → String
  | .waiting => "waiting"
  | .ready => "ready"
  | .queued => "queued"
  | .in_progress => "in_progress"
  | .review => "review"
  | .done => "done"
  | .rejected => "rejected"
  | .blocked => "blocked"

/-- Task priority enum, from backend/src/models.py (`TaskPriority`). -/
inductive TaskPriority where
  | low
  | medium
  | high
  | critical
deriving DecidableEq

/-- String value of a priority. -/
def priorityValue : TaskPriority → String
  | .low => "low"
  | .medium => "medium"
  | .high => "high"
  | .critical => "critical"

/-- The transition table `TaskStateMachine.TRANSITIONS` from
backend/src/core/state_machine.py lines 22-30, embedded as a function from
status to the list of allowed target statuses.  Statuses that are not keys of
the Python dict (`blocked`, and `waiting`/`blocked` never appear as keys)
map to the empty list, mirroring `TRANSITIONS.get(from_status, set())`. -/
def TRANSITIONS : TaskStatus → List TaskStatus
  | .waiting => [.ready]
  | .ready => [.queued]
  | .queued => [.in_progress]
  | .in_progress => [.review, .rejected]
  | .review => [.done, .rejected]
  | .done => [.rejected]
  | .rejected => [.ready]
  | .blocked => []

/-- `TaskStateMachine.can_transition` (state_machine.py lines 40-43). -/
def can_transition (from_status to_status : TaskStatus) : Bool :=
  (TRANSITIONS from_status).contains to_status

/-- The spec's transition table (spec.md section 4.5, "Complete transition
table"), written from the spec's words for comparison with the code's
`TRANSITIONS`. -/
def specTransitionTable : TaskStatus → List TaskStatus
  | .waiting => [.ready, .blocked]
  | .ready => [.queued]
  | .queued => [.in_progress]
  | .in_progress => [.review, .rejected]
  | .review => [.done, .rejected]
  | .done => [.rejected]
  | .rejected => [.ready]
  | .blocked => [.ready]

/-- Whether the spec's table permits a transition. -/
def specAllows (from_status to_status : TaskStatus) : Bool :=
  (specTransitionTable from_status).contains to_status

/-- A task row, from the `Task` model in backend/src/models.py, restricted to
the columns the claims touch.  `depends_on` is the list of dependency ids
from the `task_dependencies` association table. -/
structure Task where
  id : Nat
  project_id : Nat
  title : String
  priority : TaskPriority
  status : TaskStatus
  version : Nat
  depends_on : List Nat
  worker_id : Option Nat
  reviewer_id : Option Nat
  error_message : Option String
  started_at : Option Int
  completed_at : Option Int
deriving DecidableEq

/-- A `TaskHistory` row (models.py).  `extra_metadata` and the DB-assigned
timestamp are not modelled. -/
structure TaskHistory where
  task_id : Nat
  from_status : String
  to_status : String
  actor : String
  reason : Option String
deriving DecidableEq

/-- A message published on a stream (queue/streams.py `publish`): the stream
name and the string-valued payload fields. -/
structure StreamMessage where
  stream : String
  fields : List (String × String)
deriving DecidableEq

/-- A board event published by `transition` step 5. -/
structure BoardEvent where
  task_id : Nat
  project_id : Nat
  from_status : String
  to_status : String
  actor : String
deriving DecidableEq

/-- The database session state visible to the state machine: task rows,
history rows, plus the messages and board events published on the stream
manager during the transaction. -/
structure DB where
  tasks : List Task
  history : List TaskHistory
  published : List StreamMessage
  events : List BoardEvent
deriving DecidableEq

/-- `TaskRepository.get_by_id`: the first task row with the given id. -/
def findTask (db : DB) (tid : Nat) : Option Task :=
  db.tasks.find? (fun t => t.id == tid)

/-- Apply an update function to the task row with the given id (an ORM
mutation of the loaded object, keyed by primary key). -/
def updateTask (db : DB) (tid : Nat) (f : Task → Task) : DB :=
  { db with tasks := db.tasks.map (fun t => if t.id == tid then f t else t) }

/-- `TaskRepository.get_dependency_ids` (task_repository.py lines 101-106). -/
def get_dependency_ids (db : DB) (tid : Nat) : List Nat :=
  match findTask db tid with
  | some t => t.depends_on
  | none => []

/-- `TaskRepository.get_incomplete_dependency_count` (lines 108-119): the
number of task rows whose id is among the dependencies and whose status is
not `done`.  As in the SQL, dependency ids with no matching row contribute
nothing. -/
def get_incomplete_dependency_count (db : DB) (tid : Nat) : Nat :=
  let dep_ids := get_dependency_ids db tid
  (db.tasks.filter (fun t => dep_ids.contains t.id && decide (t.status ≠ TaskStatus.done))).length

/-- `TaskRepository.check_dependencies_met` (lines 121-123). -/
def check_dependencies_met (db : DB) (tid : Nat) : Bool :=
  get_incomplete_dependency_count db tid == 0

/-- `TaskRepository.find_waiting_dependents` (lines 125-133): `waiting`
tasks that depend on the given task. -/
def find_waiting_dependents (db : DB) (tid : Nat) : List Task :=
  db.tasks.filter (fun t => t.depends_on.contains tid && decide (t.status = TaskStatus.waiting))

/-- The extra keyword arguments a caller of `transition` can pass
(`**kwargs`).  `reason` and `actor` are named parameters of `transition`
itself, so by Python keyword-binding rules they can never appear inside
`**kwargs`; the record therefore has no `reason` field. -/
structure Kwargs where
  worker_id : Option Nat
  reviewer_id : Option Nat
deriving DecidableEq

/-- Empty kwargs. -/
def Kwargs.none : Kwargs := ⟨Option.none, Option.none⟩

/-- `TaskStateMachine._on_queued` (state_machine.py lines 128-149) with
`prompt_signer = None`: publish the task to `tasks:queue`; the
`signed_worker_prompt` field is omitted because the signer branch is not
taken. -/
def on_queued (db : DB) (tid : Nat) : DB :=
  match findTask db tid with
  | some t =>
      { db with published := db.published ++
          [⟨"tasks:queue",
            [("task_id", toString t.id), ("project_id", toString t.project_id),
             ("priority", priorityValue t.priority), ("title", t.title)]⟩] }
  | none => db

/-- The mutation `_on_in_progress` performs on the task: set `worker_id`
when provided in kwargs, and always stamp `started_at`. -/
def setStarted (kw : Kwargs) (now : Int) (t : Task) : Task :=
  { t with
      worker_id := match kw.worker_id with
        | some w => some w
        | none => t.worker_id,
      started_at := some now }

theorem setStarted_id (kw : Kwargs) (now : Int) (t : Task) :
    (setStarted kw now t).id = t.id := rfl

/-- `TaskStateMachine._on_in_progress` (lines 151-163). -/
def on_in_progress (db : DB) (tid : Nat) (kw : Kwargs) (now : Int) : DB :=
  updateTask db tid (setStarted kw now)

/-- The mutation `_on_review` performs on the task: set `reviewer_id` when
provided in kwargs. -/
def setReviewer (kw : Kwargs) (t : Task) : Task :=
  { t with
      reviewer_id := match kw.reviewer_id with
        | some r => some r
        | none => t.reviewer_id }

theorem setReviewer_id (kw : Kwargs) (t : Task) : (setReviewer kw t).id = t.id := rfl

/-- `TaskStateMachine._on_review` (lines 165-186) with `prompt_signer =
None`: set `reviewer_id` when provided and publish to `tasks:qa`. -/
def on_review (db : DB) (tid : Nat) (kw : Kwargs) : DB :=
  let db1 := updateTask db tid (setReviewer kw)
  match findTask db1 tid with
  | some t =>
      { db1 with published := db1.published ++
          [⟨"tasks:qa",
            [("task_id", toString t.id), ("project_id", toString t.project_id),
             ("title", t.title)]⟩] }
  | none => db1

/-- The mutation `waiting_task.status = ready; waiting_task.version += 1`
performed by `_promote_dependents` on a promoted dependent. -/
def promoteTaskFun (t : Task) : Task :=
  { t with status := TaskStatus.ready, version := t.version + 1 }

theorem promoteTaskFun_id (t : Task) : (promoteTaskFun t).id = t.id := rfl

/-- One iteration of the loop body of `TaskStateMachine._promote_dependents`
(lines 241-254): if all dependencies of the waiting task are met, set its
status to `ready`, bump its version, and append a history row. -/
def promoteOne (srcId : Nat) (db : DB) (w : Task) : DB :=
  if check_dependencies_met db w.id then
    let db1 := updateTask db w.id promoteTaskFun
    { db1 with history := db1.history ++
        [⟨w.id, "waiting", "ready", "system",
          some ("All dependencies met (triggered by task " ++ toString srcId ++ ")")⟩] }
  else db

/-- `TaskStateMachine._promote_dependents` (lines 236-256): iterate over the
waiting dependents of the completed task, promoting each whose dependencies
are all met. -/
def promote_dependents (db : DB) (srcId : Nat) : DB :=
  (find_waiting_dependents db srcId).foldl (promoteOne srcId) db

/-- The mutation `_on_done` performs on the task (`completed_at = now`);
the git branch is skipped (`git_ops = None`). -/
def setCompleted (now : Int) (t : Task) : Task := { t with completed_at := some now }

theorem setCompleted_id (now : Int) (t : Task) : (setCompleted now t).id = t.id := rfl

/-- `TaskStateMachine._on_done` (lines 188-208) with `git_ops = None`: stamp
`completed_at`, skip the git branch, and promote dependents (the session is
present). -/
def on_done (db : DB) (tid : Nat) (now : Int) : DB :=
  let db1 := updateTask db tid (setCompleted now)
  promote_dependents db1 tid

/-- `TaskStateMachine._on_rejected` (lines 210-227) with `git_ops = None`:
set `error_message` when a `reason` key is present in the side-effect
kwargs; the git-revert branch is not taken. -/
def on_rejected (db : DB) (tid : Nat) (reason : Option String) : DB :=
  match reason with
  | some r => updateTask db tid (fun t => { t with error_message := some r })
  | none => db

/-- `TaskStateMachine._execute_side_effects` (lines 96-116): dispatch on the
new status.  `waiting` and `blocked` have no handler in `side_effect_map`.
For `rejected` the `reason` passed on is `none`: `transition`'s `**kwargs`
can never contain a `reason` key (it is bound by the named parameter), so
`_on_rejected`'s `kwargs.get("reason")` is always `None` on this path. -/
def executeSideEffects (db : DB) (tid : Nat) (new_status : TaskStatus)
    (kw : Kwargs) (now : Int) : DB :=
  match new_status with
  | .ready => db
  | .queued => on_queued db tid
  | .in_progress => on_in_progress db tid kw now
  | .review => on_review db tid kw
  | .done => on_done db tid now
  | .rejected => on_rejected db tid Option.none
  | .waiting => db
  | .blocked => db

/-- The mutation of `transition` step 3: `task.status = new_status;
task.version += 1`. -/
def bumpStatus (new_status : TaskStatus) (t : Task) : Task :=
  { t with status := new_status, version := t.version + 1 }

theorem bumpStatus_id (new_status : TaskStatus) (t : Task) :
    (bumpStatus new_status t).id = t.id := rfl

/-- Steps 2-5 of `TaskStateMachine.transition` (lines 62-92), run once the
transition has been validated: append a history row, bump status and
version, run the side effects, publish a board event. -/
def applyTransition (db : DB) (tid : Nat) (task : Task) (new_status : TaskStatus)
    (reason : Option String) (actor : String) (kw : Kwargs) (now : Int) : DB :=
  let db3 := executeSideEffects
    (updateTask
      { db with history := db.history ++
        [⟨tid, statusValue task.status, statusValue new_status, actor, reason⟩] }
      tid (bumpStatus new_status))
    tid new_status kw now
  { db3 with events := db3.events ++
    [⟨tid, task.project_id, statusValue task.status, statusValue new_status, actor⟩] }

/-- `TaskStateMachine.transition` (lines 45-94): validate against the table,
then apply.  An invalid transition raises (`Except.error`) before any
mutation (step 1 precedes steps 2-4), so the caller's state is unchanged on
failure. -/
def transition (db : DB) (tid : Nat) (new_status : TaskStatus)
    (reason : Option String) (actor : String) (kw : Kwargs) (now : Int) :
    Except String DB :=
  match findTask db tid with
  | none => Except.error ("task not found")
  | some task =>
      if can_transition task.status new_status then
        Except.ok (applyTransition db tid task new_status reason actor kw now)
      else
        Except.error ("Invalid transition: " ++ statusValue task.status ++ " -> " ++
          statusValue new_status)

/-- The JSON body a client may POST to the transition endpoint.  Clients
following the spec's optimistic-concurrency contract include an
`expected_version` key. -/
structure TaskTransitionBody where
  new_status : TaskStatus
  reason : Option String
  actor : String
  expected_version : Option Nat
deriving DecidableEq

/-- `schemas.TaskTransition` (backend/src/schemas.py lines 134-137): the
validated request model has only `new_status`, `reason`, `actor`. -/
structure TaskTransition where
  new_status : TaskStatus
  reason : Option String
  actor : String
deriving DecidableEq

/-- Pydantic validation of the request body: unknown keys such as
`expected_version` are dropped (the default model config ignores extras). -/
def parseTaskTransition (b : TaskTransitionBody) : TaskTransition :=
  ⟨b.new_status, b.reason, b.actor⟩

/-- The `transition_task` endpoint (backend/src/api/tasks.py lines 202-249):
404 when the task does not exist, 400 when the state machine raises
`ValueError`, otherwise 200 with the committed state.  Returns the HTTP
status code and the database state after the request. -/
def transition_task (db : DB) (tid : Nat) (body : TaskTransitionBody)
    (now : Int) : Nat × DB :=
  match findTask db tid with
  | none => (404, db)
  | some _ =>
      let t := parseTaskTransition body
      match transition db tid t.new_status t.reason t.actor Kwargs.none now with
      | Except.ok db' => (200, db')
      | Except.error _ => (400, db)

/-- All eight task statuses. -/
def allStatuses : List TaskStatus :=
  [.waiting, .ready, .queued, .in_progress, .review, .done, .rejected, .blocked]

/-- A task in `in_progress` with a waiting dependent, for the rejection
cascade claims. -/
def c2_taskA : Task :=
  ⟨1, 10, "A", TaskPriority.medium, TaskStatus.in_progress, 3, [],
   Option.none, Option.none, Option.none, Option.none, Option.none⟩

/-- The waiting dependent of `c2_taskA`. -/
def c2_taskB : Task :=
  ⟨2, 10, "B", TaskPriority.medium, TaskStatus.waiting, 1, [1],
   Option.none, Option.none, Option.none, Option.none, Option.none⟩

/-- Database with task A `in_progress` and task B `waiting` on A. -/
def c2_db : DB := ⟨[c2_taskA, c2_taskB], [], [], []⟩

/-- A single `in_progress` task, for the rejection-reason claim. -/
def c6_task : Task :=
  ⟨1, 10, "T", TaskPriority.medium, TaskStatus.in_progress, 1, [],
   Option.none, Option.none, Option.none, Option.none, Option.none⟩

/-- Database holding only `c6_task`. -/
def c6_db : DB := ⟨[c6_task], [], [], []⟩

/-- A single `ready` task at version 1, for the optimistic-concurrency
claim. -/
def c3_task : Task :=
  ⟨1, 10, "T", TaskPriority.medium, TaskStatus.ready, 1, [],
   Option.none, Option.none, Option.none, Option.none, Option.none⟩

/-- Database holding only `c3_task`. -/
def c3_db : DB := ⟨[c3_task], [], [], []⟩

/-- Claim C1: the spec's transition table lists `waiting → blocked` and
`blocked → ready`, but the code's `TRANSITIONS` dict has no `blocked`
entries at all, so `can_transition` rejects both pairs (the repository's own
tests, test_state_machine.py `test_can_transition_all_valid_paths`, assert
they are permitted).  On every other pair the code and the spec's table
agree. -/
theorem c1_transitions_diverge_from_spec :
    can_transition TaskStatus.waiting TaskStatus.blocked = false ∧
    can_transition TaskStatus.blocked TaskStatus.ready = false ∧
    specAllows TaskStatus.waiting TaskStatus.blocked = true ∧
    specAllows TaskStatus.blocked TaskStatus.ready = true ∧
    (∀ s : TaskStatus, s ∈ allStatuses) ∧
    (∀ f ∈ allStatuses, ∀ t ∈ allStatuses,
      ¬(f = TaskStatus.waiting ∧ t = TaskStatus.blocked) →
      ¬(f = TaskStatus.blocked ∧ t = TaskStatus.ready) →
      can_transition f t = specAllows f t) := by
  refine ⟨rfl, rfl, rfl, rfl, ?_, ?_⟩
  · intro s; cases s <;> simp [allStatuses]
  · decide

/-- Claim C2: after task 1 (`in_progress`, with waiting dependent task 2)
transitions to `rejected`, the code leaves task 2 in `waiting` at its old
version with no history row: `_on_rejected` performs no cascade, contrary to
the spec's P6 and the repository's own test
`test_on_rejected_blocks_waiting_dependents`. -/
theorem c2_rejected_no_cascade :
    (transition c2_db 1 TaskStatus.rejected (some ("x")) "pm" Kwargs.none 0).map
      (fun db' => ((findTask db' 2).map Task.status,
                   (findTask db' 2).map Task.version,
                   db'.history.filter (fun h => h.task_id == 2))) =
    Except.ok (some TaskStatus.waiting, some 1, []) := by
  rfl

/-- Claim C3: a transition request carrying `expected_version = 999` against
a task at version 1 is accepted with HTTP 200 and the task moves to `queued`
at version 2: the endpoint and `schemas.TaskTransition` have no
`expected_version` handling, contrary to the spec and the repository's own
tests (test_api_tasks.py `test_transition_with_mismatched_version_409`). -/
theorem c3_expected_version_ignored :
    (transition_task c3_db 1 ⟨TaskStatus.queued, Option.none, "test", some 999⟩ 0).1 = 200 ∧
    ((findTask (transition_task c3_db 1 ⟨TaskStatus.queued, Option.none, "test", some 999⟩ 0).2 1).map
      Task.status = some TaskStatus.queued) ∧
    ((findTask (transition_task c3_db 1 ⟨TaskStatus.queued, Option.none, "test", some 999⟩ 0).2 1).map
      Task.version = some 2) := by
  refine ⟨rfl, rfl, rfl⟩

/-- Claim C6: a successful `transition` to `rejected` with reason "x" leaves
`error_message = None`: the `reason` argument is consumed by `transition`'s
named parameter and never reaches `_on_rejected`'s `kwargs`, so the recording
step the spec (and `_on_rejected`'s own docstring) describe never runs on
this path.  Called directly with a reason — as the repository's unit test
does to work around this — `on_rejected` does record it. -/
theorem c6_reason_not_recorded :
    ((transition c6_db 1 TaskStatus.rejected (some ("x")) "user" Kwargs.none 0).map
      (fun db' => ((findTask db' 1).map Task.status,
                   (findTask db' 1).map Task.error_message)) =
      Except.ok (some TaskStatus.rejected, some Option.none)) ∧
    ((findTask (on_rejected c6_db 1 (some ("x"))) 1).map Task.error_message =
      some (some ("x"))) := by
  refine ⟨rfl, rfl⟩

theorem ite_update_id (uid : Nat) (f : Task → Task) (hf : ∀ t, (f t).id = t.id)
    (a : Task) : (if a.id == uid then f a else a).id = a.id := by
  by_cases h : a.id = uid <;> simp [h, hf]

theorem find?_update (l : List Task) (uid tid : Nat) (f : Task → Task)
    (hf : ∀ t, (f t).id = t.id) :
    List.find? (fun t => t.id == tid) (l.map (fun t => if t.id == uid then f t else t)) =
      Option.map (fun t => if t.id == uid then f t else t)
        (List.find? (fun t => t.id == tid) l) := by
  induction l with
  | nil => rfl
  | cons a l ih =>
      simp only [List.map_cons, List.find?]
      rw [ite_update_id uid f hf a]
      cases h : (a.id == tid) with
      | true => rfl
      | false => exact ih

theorem findTask_updateTask (db : DB) (uid tid : Nat) (f : Task → Task)
    (hf : ∀ t, (f t).id = t.id) :
    findTask (updateTask db uid f) tid =
      Option.map (fun t => if t.id == uid then f t else t) (findTask db tid) := by
  simpa [findTask, updateTask] using find?_update db.tasks uid tid f hf

theorem findTask_updateTask_ne (db : DB) (uid tid : Nat) (f : Task → Task)
    (hf : ∀ t, (f t).id = t.id) (h : tid ≠ uid) :
    findTask (updateTask db uid f) tid = findTask db tid := by
  rw [findTask_updateTask db uid tid f hf]
  cases hfind : findTask db tid with
  | none => rfl
  | some t =>
      unfold findTask at hfind
      have ht := List.find?_some hfind
      simp only [beq_iff_eq] at ht
      have hne : ¬(t.id = uid) := by omega
      simp [hne]

theorem findTask_updateTask_self (db : DB) (tid : Nat) (f : Task → Task)
    (hf : ∀ t, (f t).id = t.id) :
    findTask (updateTask db tid f) tid = Option.map f (findTask db tid) := by
  rw [findTask_updateTask db tid tid f hf]
  cases hfind : findTask db tid with
  | none => rfl
  | some t =>
      unfold findTask at hfind
      have ht := List.find?_some hfind
      simp only [beq_iff_eq] at ht
      simp [ht]

theorem updateTask_map_id (db : DB) (uid : Nat) (f : Task → Task)
    (hf : ∀ t, (f t).id = t.id) :
    (updateTask db uid f).tasks.map Task.id = db.tasks.map Task.id := by
  unfold updateTask
  rw [List.map_map]
  refine List.map_congr_left ?_
  intro t _
  exact ite_update_id uid f hf t

theorem mem_eq_of_id (db : DB) (hnd : (db.tasks.map Task.id).Nodup)
    (t u : Task) (ht : t ∈ db.tasks) (hu : u ∈ db.tasks) (h : t.id = u.id) : t = u :=
  List.inj_on_of_nodup_map hnd ht hu h

theorem findTask_of_mem_nodup (db : DB) (B : Task)
    (hnd : (db.tasks.map Task.id).Nodup) (hB : B ∈ db.tasks) :
    findTask db B.id = some B := by
  have hsome : (db.tasks.find? (fun t => t.id == B.id)).isSome := by
    rw [List.find?_isSome]
    exact ⟨B, hB, by simp⟩
  cases hfind : db.tasks.find? (fun t => t.id == B.id) with
  | none => rw [hfind] at hsome; simp at hsome
  | some u =>
      have hmem : u ∈ db.tasks := List.mem_of_find?_eq_some hfind
      have hid := List.find?_some hfind
      have : u = B := mem_eq_of_id db hnd u B hmem hB (by simpa using hid)
      simpa [findTask, this] using hfind

theorem check_met_iff (db : DB) (tid : Nat) :
    check_dependencies_met db tid = true ↔
      ∀ t ∈ db.tasks, (get_dependency_ids db tid).contains t.id →
        t.status = TaskStatus.done := by
  unfold check_dependencies_met get_incomplete_dependency_count
  rw [beq_iff_eq, List.length_eq_zero, List.filter_eq_nil_iff]
  constructor
  · intro h t hmem hdep
    have := h t hmem
    simp only [Bool.and_eq_true, decide_eq_true_eq, not_and] at this
    by_contra hne
    exact this hdep hne
  · intro h t hmem
    simp only [Bool.and_eq_true, decide_eq_true_eq, not_and]
    intro hdep
    simp [h t hmem hdep]

theorem findTask_set_history (db : DB) (h : List TaskHistory) (tid : Nat) :
    findTask { db with history := h } tid = findTask db tid := rfl

theorem mem_updateTask_cases (db : DB) (uid : Nat) (f : Task → Task) (t' : Task)
    (h : t' ∈ (updateTask db uid f).tasks) :
    ∃ t ∈ db.tasks, t' = if t.id == uid then f t else t := by
  unfold updateTask at h
  rcases List.mem_map.mp h with ⟨t, ht, heq⟩
  exact ⟨t, ht, heq.symm⟩

theorem promoteOne_tasks_map_id (src : Nat) (db : DB) (w : Task) :
    (promoteOne src db w).tasks.map Task.id = db.tasks.map Task.id := by
  unfold promoteOne
  by_cases h : check_dependencies_met db w.id = true
  · simp only [h, if_true]
    exact updateTask_map_id db w.id promoteTaskFun promoteTaskFun_id
  · simp [h]

theorem findTask_promoteOne_ne (src : Nat) (db : DB) (w : Task) (tid : Nat)
    (h : tid ≠ w.id) :
    findTask (promoteOne src db w) tid = findTask db tid := by
  unfold promoteOne
  by_cases hc : check_dependencies_met db w.id = true
  · simp only [hc, if_true]
    exact findTask_updateTask_ne db w.id tid promoteTaskFun promoteTaskFun_id h
  · simp [hc]

theorem findTask_promote_fold_ne (src : Nat) (ws : List Task) (db : DB) (tid : Nat)
    (h : ∀ w ∈ ws, tid ≠ w.id) :
    findTask (ws.foldl (promoteOne src) db) tid = findTask db tid := by
  induction ws generalizing db with
  | nil => rfl
  | cons w ws ih =>
      rw [List.foldl_cons,
        ih (promoteOne src db w) (fun x hx => h x (List.mem_cons_of_mem _ hx))]
      exact findTask_promoteOne_ne src db w tid (h w (List.mem_cons_self _ _))

theorem history_mono_promoteOne (src : Nat) (db : DB) (w : Task) (r : TaskHistory)
    (h : r ∈ db.history) : r ∈ (promoteOne src db w).history := by
  unfold promoteOne
  by_cases hc : check_dependencies_met db w.id = true
  · simp only [hc, if_true]
    exact List.mem_append_left _ h
  · simpa [hc] using h

theorem history_mono_fold (src : Nat) (ws : List Task) (db : DB) (r : TaskHistory)
    (h : r ∈ db.history) : r ∈ (ws.foldl (promoteOne src) db).history := by
  induction ws generalizing db with
  | nil => exact h
  | cons w ws ih => exact ih _ (history_mono_promoteOne src db w r h)

theorem check_met_promoteOne (src : Nat) (db : DB) (w B : Task)
    (hnd : (db.tasks.map Task.id).Nodup)
    (hwmem : w ∈ db.tasks) (hww : w.status = TaskStatus.waiting)
    (hBfind : findTask db B.id = some B) (hBid : B.id ≠ w.id)
    (hmet : check_dependencies_met db B.id = true) :
    check_dependencies_met (promoteOne src db w) B.id = true := by
  unfold promoteOne
  by_cases hc : check_dependencies_met db w.id = true
  case neg => simpa [hc] using hmet
  simp only [hc, if_true]
  have hdeps : get_dependency_ids db B.id = B.depends_on := by
    unfold get_dependency_ids
    rw [hBfind]
  have hmet' := (check_met_iff db B.id).mp hmet
  rw [hdeps] at hmet'
  show check_dependencies_met (updateTask db w.id promoteTaskFun) B.id = true
  rw [check_met_iff]
  have hdeps' : get_dependency_ids (updateTask db w.id promoteTaskFun) B.id =
      B.depends_on := by
    unfold get_dependency_ids
    rw [findTask_updateTask_ne db w.id B.id promoteTaskFun promoteTaskFun_id hBid, hBfind]
  rw [hdeps']
  intro t' hmem' hcont
  rcases mem_updateTask_cases db w.id _ t' hmem' with ⟨t, htmem, hform⟩
  by_cases hid : t.id = w.id
  · have htw : t = w := mem_eq_of_id db hnd t w htmem hwmem hid
    subst htw
    have : t.status = TaskStatus.done := by
      apply hmet' t htmem
      have : t'.id = t.id := by rw [hform]; simp [hid, promoteTaskFun_id]
      rw [← this]
      exact hcont
    rw [hww] at this
    cases this
  · have : t' = t := by rw [hform]; simp [hid]
    subst this
    exact hmet' t' htmem hcont

theorem promote_fold_spec (src : Nat) (ws : List Task) (db : DB) (B : Task)
    (hnd : (db.tasks.map Task.id).Nodup)
    (hwnd : (ws.map Task.id).Nodup)
    (hws : ∀ w ∈ ws, findTask db w.id = some w ∧ w.status = TaskStatus.waiting)
    (hmemB : B ∈ ws)
    (hmet : check_dependencies_met db B.id = true) :
    findTask (ws.foldl (promoteOne src) db) B.id =
      some { B with status := TaskStatus.ready, version := B.version + 1 } ∧
    (⟨B.id, "waiting", "ready", "system",
      some ("All dependencies met (triggered by task " ++ toString src ++ ")")⟩ : TaskHistory)
      ∈ (ws.foldl (promoteOne src) db).history := by
  induction ws generalizing db with
  | nil => cases hmemB
  | cons w ws ih =>
      rw [List.foldl_cons]
      rw [List.map_cons, List.nodup_cons] at hwnd
      rcases List.mem_cons.mp hmemB with hBw | hBtail
      · subst hBw
        have hfindB : findTask db B.id = some B := (hws B (List.mem_cons_self _ _)).1
        have hne : ∀ x ∈ ws, B.id ≠ x.id := by
          intro x hx hcontra
          exact hwnd.1 (hcontra ▸ List.mem_map_of_mem Task.id hx)
        have hstep1 : findTask (promoteOne src db B) B.id =
            some { B with status := TaskStatus.ready, version := B.version + 1 } := by
          unfold promoteOne
          rw [if_pos hmet]
          rw [findTask_set_history]
          rw [findTask_updateTask_self db B.id promoteTaskFun promoteTaskFun_id, hfindB]
          rfl
        have hstep2 : (⟨B.id, "waiting", "ready", "system",
            some ("All dependencies met (triggered by task " ++ toString src ++ ")")⟩ :
              TaskHistory) ∈ (promoteOne src db B).history := by
          unfold promoteOne
          rw [if_pos hmet]
          exact List.mem_append_right _ (List.mem_singleton_self _)
        refine ⟨?_, history_mono_fold src ws _ _ hstep2⟩
        rw [findTask_promote_fold_ne src ws _ B.id hne]
        exact hstep1
      · have hBneW : B.id ≠ w.id := by
          intro hcontra
          exact hwnd.1 (hcontra ▸ List.mem_map_of_mem Task.id hBtail)
        have hwfind : findTask db w.id = some w := (hws w (List.mem_cons_self _ _)).1
        have hww : w.status = TaskStatus.waiting := (hws w (List.mem_cons_self _ _)).2
        have hwmem : w ∈ db.tasks := by
          unfold findTask at hwfind
          exact List.mem_of_find?_eq_some hwfind
        have hBfind : findTask db B.id = some B := (hws B (List.mem_cons_of_mem _ hBtail)).1
        refine ih (promoteOne src db w) ?_ hwnd.2 ?_ hBtail ?_
        · rw [promoteOne_tasks_map_id]
          exact hnd
        · intro x hx
          have hxne : x.id ≠ w.id := by
            intro hcontra
            exact hwnd.1 (hcontra ▸ List.mem_map_of_mem Task.id hx)
          rw [findTask_promoteOne_ne src db w x.id hxne]
          exact hws x (List.mem_cons_of_mem _ hx)
        · exact check_met_promoteOne src db w B hnd hwmem hww hBfind hBneW hmet

theorem can_transition_self_false (s : TaskStatus) : can_transition s s = false := by
  cases s <;> rfl

theorem transition_eq_of_valid (db : DB) (tid : Nat) (task : Task) (ns : TaskStatus)
    (r : Option String) (a : String) (kw : Kwargs) (now : Int)
    (hfind : findTask db tid = some task)
    (hvalid : can_transition task.status ns = true) :
    transition db tid ns r a kw now =
      Except.ok (applyTransition db tid task ns r a kw now) := by
  unfold transition
  rw [hfind]
  show (if can_transition task.status ns = true then
      Except.ok (applyTransition db tid task ns r a kw now)
    else
      Except.error ("Invalid transition: " ++ statusValue task.status ++ " -> " ++
        statusValue ns)) =
    Except.ok (applyTransition db tid task ns r a kw now)
  rw [if_pos hvalid]

theorem transition_eq_of_invalid (db : DB) (tid : Nat) (task : Task) (ns : TaskStatus)
    (r : Option String) (a : String) (kw : Kwargs) (now : Int)
    (hfind : findTask db tid = some task)
    (hinvalid : can_transition task.status ns = false) :
    transition db tid ns r a kw now =
      Except.error ("Invalid transition: " ++ statusValue task.status ++ " -> " ++
        statusValue ns) := by
  unfold transition
  rw [hfind]
  show (if can_transition task.status ns = true then
      Except.ok (applyTransition db tid task ns r a kw now)
    else
      Except.error ("Invalid transition: " ++ statusValue task.status ++ " -> " ++
        statusValue ns)) = _
  rw [if_neg (by rw [hinvalid]; exact Bool.false_ne_true)]

theorem findTask_on_queued (db : DB) (tid2 tid : Nat) :
    findTask (on_queued db tid2) tid = findTask db tid := by
  unfold on_queued
  cases findTask db tid2 <;> rfl

theorem findTask_on_review (db : DB) (tid2 : Nat) (kw : Kwargs) (tid : Nat) :
    findTask (on_review db tid2 kw) tid =
      findTask (updateTask db tid2 (setReviewer kw)) tid := by
  unfold on_review
  cases hc : findTask (updateTask db tid2 (setReviewer kw)) tid2 with
  | none => simp only [hc]
  | some t => simp only [hc]; rfl

theorem findTask_promote_dependents_not_waiting (db : DB) (src : Nat) (t : Task)
    (hnd : (db.tasks.map Task.id).Nodup)
    (hfind : findTask db src = some t) (hst : t.status ≠ TaskStatus.waiting) :
    findTask (promote_dependents db src) src = some t := by
  unfold promote_dependents
  rw [findTask_promote_fold_ne src (find_waiting_dependents db src) db src ?hne]
  · exact hfind
  case hne =>
    intro w hw hcontra
    have hwmem : w ∈ db.tasks := (List.mem_filter.mp hw).1
    have hwp := (List.mem_filter.mp hw).2
    have hww : w.status = TaskStatus.waiting := by
      simp only [Bool.and_eq_true, decide_eq_true_eq] at hwp
      exact hwp.2
    have htmem : t ∈ db.tasks := by
      unfold findTask at hfind
      exact List.mem_of_find?_eq_some hfind
    have htid : t.id = src := by
      unfold findTask at hfind
      have := List.find?_some hfind
      simpa using this
    have hwt : w = t := mem_eq_of_id db hnd w t hwmem htmem (by rw [← hcontra, htid])
    rw [hwt] at hww
    exact hst hww

theorem findTask_sideEffects (db : DB) (tid : Nat) (ns : TaskStatus) (kw : Kwargs)
    (now : Int) (t : Task)
    (hnd : (db.tasks.map Task.id).Nodup)
    (hfind : findTask db tid = some t) (hst : t.status = ns) :
    ∃ t', findTask (executeSideEffects db tid ns kw now) tid = some t' ∧
      t'.status = ns := by
  cases ns with
  | waiting => exact ⟨t, hfind, hst⟩
  | ready => exact ⟨t, hfind, hst⟩
  | blocked => exact ⟨t, hfind, hst⟩
  | rejected => exact ⟨t, hfind, hst⟩
  | queued =>
      show ∃ t', findTask (on_queued db tid) tid = some t' ∧ t'.status = TaskStatus.queued
      rw [findTask_on_queued]
      exact ⟨t, hfind, hst⟩
  | in_progress =>
      show ∃ t', findTask (updateTask db tid (setStarted kw now)) tid = some t' ∧
        t'.status = TaskStatus.in_progress
      rw [findTask_updateTask_self db tid (setStarted kw now) (setStarted_id kw now),
        hfind]
      exact ⟨setStarted kw now t, rfl, hst⟩
  | review =>
      show ∃ t', findTask (on_review db tid kw) tid = some t' ∧
        t'.status = TaskStatus.review
      rw [findTask_on_review db tid kw tid,
        findTask_updateTask_self db tid (setReviewer kw) (setReviewer_id kw), hfind]
      exact ⟨setReviewer kw t, rfl, hst⟩
  | done =>
      show ∃ t', findTask (promote_dependents (updateTask db tid (setCompleted now)) tid)
        tid = some t' ∧ t'.status = TaskStatus.done
      have hndD : ((updateTask db tid (setCompleted now)).tasks.map Task.id).Nodup := by
        rw [updateTask_map_id db tid (setCompleted now) (setCompleted_id now)]
        exact hnd
      have hfD : findTask (updateTask db tid (setCompleted now)) tid =
          some (setCompleted now t) := by
        rw [findTask_updateTask_self db tid (setCompleted now) (setCompleted_id now),
          hfind]
        rfl
      have hstD : (setCompleted now t).status = TaskStatus.done := hst
      refine ⟨setCompleted now t, ?_, hstD⟩
      exact findTask_promote_dependents_not_waiting _ tid (setCompleted now t) hndD hfD
        (by rw [hstD]; intro hcontra; cases hcontra)

theorem findTask_applyTransition (db : DB) (tid : Nat) (task : Task) (ns : TaskStatus)
    (r : Option String) (a : String) (kw : Kwargs) (now : Int) (x : Nat) :
    findTask (applyTransition db tid task ns r a kw now) x =
      findTask (executeSideEffects
        (updateTask
          { db with history := db.history ++
            [⟨tid, statusValue task.status, statusValue ns, a, r⟩] }
          tid (bumpStatus ns))
        tid ns kw now) x := rfl

theorem history_applyTransition (db : DB) (tid : Nat) (task : Task) (ns : TaskStatus)
    (r : Option String) (a : String) (kw : Kwargs) (now : Int) :
    (applyTransition db tid task ns r a kw now).history =
      (executeSideEffects
        (updateTask
          { db with history := db.history ++
            [⟨tid, statusValue task.status, statusValue ns, a, r⟩] }
          tid (bumpStatus ns))
        tid ns kw now).history := rfl

theorem applyTransition_status (db : DB) (tid : Nat) (task : Task) (ns : TaskStatus)
    (r : Option String) (a : String) (kw : Kwargs) (now : Int)
    (hnd : (db.tasks.map Task.id).Nodup)
    (hfind : findTask db tid = some task) :
    ∃ t', findTask (applyTransition db tid task ns r a kw now) tid = some t' ∧
      t'.status = ns := by
  rw [findTask_applyTransition]
  have hnd2 : ((updateTask
      { db with history := db.history ++
        [⟨tid, statusValue task.status, statusValue ns, a, r⟩] }
      tid (bumpStatus ns)).tasks.map Task.id).Nodup := by
    rw [updateTask_map_id _ tid (bumpStatus ns) (bumpStatus_id ns)]
    exact hnd
  have hfind2 : findTask (updateTask
      { db with history := db.history ++
        [⟨tid, statusValue task.status, statusValue ns, a, r⟩] }
      tid (bumpStatus ns)) tid = some (bumpStatus ns task) := by
    rw [findTask_updateTask_self _ tid (bumpStatus ns) (bumpStatus_id ns),
      findTask_set_history, hfind]
    rfl
  exact findTask_sideEffects _ tid ns kw now (bumpStatus ns task) hnd2 hfind2 rfl

/-- A single `ready` task for the idempotence witness. -/
def c5_wtask : Task :=
  ⟨1, 10, "W", TaskPriority.medium, TaskStatus.ready, 1, [],
   Option.none, Option.none, Option.none, Option.none, Option.none⟩

/-- Database holding only `c5_wtask`. -/
def c5_wdb : DB := ⟨[c5_wtask], [], [], []⟩

/-- Claim C5: once a valid transition `(task, from, to)` has been applied,
re-issuing the same transition raises `Invalid transition: to -> to` (the
task's state no longer matches `from`, and the table has no self-loops).
Because `transition` validates before any mutation (step 1 of the source
precedes steps 2-4), the failing call performs no status, version, or
history change — the `Except.error` branch returns the caller's state
untouched. -/
theorem c5_reissued_transition_invalid (db : DB) (tid : Nat) (task : Task)
    (s2 : TaskStatus) (r r' : Option String) (a a' : String) (kw kw' : Kwargs)
    (now now' : Int)
    (hnd : (db.tasks.map Task.id).Nodup)
    (hfind : findTask db tid = some task)
    (hvalid : can_transition task.status s2 = true) :
    ∃ db', transition db tid s2 r a kw now = Except.ok db' ∧
      transition db' tid s2 r' a' kw' now' =
        Except.error ("Invalid transition: " ++ statusValue s2 ++ " -> " ++
          statusValue s2) := by
  refine ⟨applyTransition db tid task s2 r a kw now,
    transition_eq_of_valid db tid task s2 r a kw now hfind hvalid, ?_⟩
  obtain ⟨t', hfind', hst'⟩ :=
    applyTransition_status db tid task s2 r a kw now hnd hfind
  have hinv : can_transition t'.status s2 = false := by
    rw [hst']
    exact can_transition_self_false s2
  have herr := transition_eq_of_invalid
    (applyTransition db tid task s2 r a kw now) tid t' s2 r' a' kw' now' hfind' hinv
  rw [hst'] at herr
  exact herr

/-- Witness for C5 at a concrete input: a `ready` task queued once, then the
same `ready → queued` transition re-issued. -/
theorem c5_witness :
    ∃ db', transition c5_wdb 1 TaskStatus.queued Option.none ("pm") Kwargs.none 0 =
        Except.ok db' ∧
      transition db' 1 TaskStatus.queued Option.none ("pm") Kwargs.none 0 =
        Except.error ("Invalid transition: " ++ statusValue TaskStatus.queued ++
          " -> " ++ statusValue TaskStatus.queued) :=
  c5_reissued_transition_invalid c5_wdb 1 c5_wtask TaskStatus.queued
    Option.none Option.none ("pm") "pm" Kwargs.none Kwargs.none 0 0
    (by decide) rfl rfl

theorem promote_after_done (dbD : DB) (aId : Nat) (B : Task)
    (hnd : (dbD.tasks.map Task.id).Nodup)
    (hfB : findTask dbD B.id = some B) (hBw : B.status = TaskStatus.waiting)
    (hdep : aId ∈ B.depends_on)
    (hmet : check_dependencies_met dbD B.id = true) :
    findTask (promote_dependents dbD aId) B.id =
      some { B with status := TaskStatus.ready, version := B.version + 1 } ∧
    (⟨B.id, "waiting", "ready", "system",
      some ("All dependencies met (triggered by task " ++ toString aId ++ ")")⟩ :
        TaskHistory) ∈ (promote_dependents dbD aId).history := by
  unfold promote_dependents
  refine promote_fold_spec aId (find_waiting_dependents dbD aId) dbD B hnd ?_ ?_ ?_ hmet
  · exact List.Nodup.sublist (List.Sublist.map Task.id (List.filter_sublist _)) hnd
  · intro w hw
    have hwmem : w ∈ dbD.tasks := (List.mem_filter.mp hw).1
    have hwp := (List.mem_filter.mp hw).2
    have hww : w.status = TaskStatus.waiting := by
      simp only [Bool.and_eq_true, decide_eq_true_eq] at hwp
      exact hwp.2
    exact ⟨findTask_of_mem_nodup dbD w hnd hwmem, hww⟩
  · unfold find_waiting_dependents
    rw [List.mem_filter]
    constructor
    · unfold findTask at hfB
      exact List.mem_of_find?_eq_some hfB
    · simp only [Bool.and_eq_true, decide_eq_true_eq]
      exact ⟨by simpa using hdep, hBw⟩

theorem executeSideEffects_done (db : DB) (tid : Nat) (kw : Kwargs) (now : Int) :
    executeSideEffects db tid TaskStatus.done kw now =
      promote_dependents (updateTask db tid (setCompleted now)) tid := rfl

/-- Claim C7: after task `aId` transitions to `done`, every `waiting`
dependent `B` of it whose other dependencies are all `done` ends the same
transaction with status `ready`, its version incremented by 1, and a
history row whose reason is the all-dependencies-met message
("All dependencies met (triggered by task aId)"). -/
theorem c7_done_promotes_waiting_dependents
    (db : DB) (aId : Nat) (A B : Task) (r : Option String) (act : String)
    (kw : Kwargs) (now : Int)
    (hnd : (db.tasks.map Task.id).Nodup)
    (hA : findTask db aId = some A)
    (hvalid : can_transition A.status TaskStatus.done = true)
    (hB : B ∈ db.tasks) (hBw : B.status = TaskStatus.waiting)
    (hdep : aId ∈ B.depends_on)
    (hothers : ∀ t ∈ db.tasks, t.id ∈ B.depends_on → t.id ≠ aId →
      t.status = TaskStatus.done) :
    ∃ db', transition db aId TaskStatus.done r act kw now = Except.ok db' ∧
      findTask db' B.id =
        some { B with status := TaskStatus.ready, version := B.version + 1 } ∧
      (⟨B.id, "waiting", "ready", "system",
        some ("All dependencies met (triggered by task " ++ toString aId ++ ")")⟩ :
          TaskHistory) ∈ db'.history := by
  refine ⟨applyTransition db aId A TaskStatus.done r act kw now,
    transition_eq_of_valid db aId A TaskStatus.done r act kw now hA hvalid, ?_⟩
  rw [findTask_applyTransition db aId A TaskStatus.done r act kw now B.id,
    history_applyTransition db aId A TaskStatus.done r act kw now,
    executeSideEffects_done]
  set dbD : DB := updateTask
    (updateTask
      { db with history := db.history ++
        [⟨aId, statusValue A.status, statusValue TaskStatus.done, act, r⟩] }
      aId (bumpStatus TaskStatus.done))
    aId (setCompleted now) with hdbD
  have hAid : A.id = aId := by
    unfold findTask at hA
    have := List.find?_some hA
    simpa using this
  have hAmem : A ∈ db.tasks := by
    unfold findTask at hA
    exact List.mem_of_find?_eq_some hA
  have hBfind0 : findTask db B.id = some B := findTask_of_mem_nodup db B hnd hB
  have hBneA : B.id ≠ aId := by
    intro hcontra
    have h1 : findTask db aId = some B := by rw [← hcontra]; exact hBfind0
    have hBA : B = A := by
      rw [hA] at h1
      exact (Option.some.inj h1).symm
    rw [← hBA, hBw] at hvalid
    exact absurd hvalid (by decide)
  have hndD : (dbD.tasks.map Task.id).Nodup := by
    rw [hdbD,
      updateTask_map_id _ aId (setCompleted now) (setCompleted_id now),
      updateTask_map_id _ aId (bumpStatus TaskStatus.done) (bumpStatus_id TaskStatus.done)]
    exact hnd
  have hfB_D : findTask dbD B.id = some B := by
    rw [hdbD,
      findTask_updateTask_ne _ aId B.id (setCompleted now) (setCompleted_id now) hBneA,
      findTask_updateTask_ne _ aId B.id (bumpStatus TaskStatus.done)
        (bumpStatus_id TaskStatus.done) hBneA,
      findTask_set_history]
    exact hBfind0
  have hmetD : check_dependencies_met dbD B.id = true := by
    rw [check_met_iff]
    have hdeps : get_dependency_ids dbD B.id = B.depends_on := by
      unfold get_dependency_ids
      rw [hfB_D]
    rw [hdeps]
    intro t' hmem' hcont
    rw [hdbD] at hmem'
    rcases mem_updateTask_cases _ aId (setCompleted now) t' hmem' with ⟨s, hsmem, hsform⟩
    rcases mem_updateTask_cases _ aId (bumpStatus TaskStatus.done) s hsmem with
      ⟨t, htmem, htform⟩
    have htmem' : t ∈ db.tasks := htmem
    by_cases hid : t.id = aId
    · have hsf : s = bumpStatus TaskStatus.done t := by rw [htform]; simp [hid]
      have hsid : s.id = aId := by rw [hsf]; exact hid
      have ht'f : t' = setCompleted now s := by rw [hsform]; simp [hsid]
      rw [ht'f, hsf]
      rfl
    · have hsf : s = t := by rw [htform]; simp [hid]
      have ht'f : t' = t := by
        rw [hsform, hsf]
        simp [hid]
      rw [ht'f] at hcont ⊢
      refine hothers t htmem' ?_ hid
      simpa using hcont
  exact promote_after_done dbD aId B hndD hfB_D hBw hdep hmetD

/-- Task A (`review`) for the C7 witness. -/
def c7_wA : Task :=
  ⟨1, 10, "A", TaskPriority.medium, TaskStatus.review, 1, [],
   Option.none, Option.none, Option.none, Option.none, Option.none⟩

/-- Task B (`waiting`, depends on A) for the C7 witness. -/
def c7_wB : Task :=
  ⟨2, 10, "B", TaskPriority.medium, TaskStatus.waiting, 1, [1],
   Option.none, Option.none, Option.none, Option.none, Option.none⟩

/-- Database with A in `review` and B `waiting` on A. -/
def c7_wdb : DB := ⟨[c7_wA, c7_wB], [], [], []⟩

/-- Witness for C7 at a concrete input: A (`review`) completes, B (`waiting`
on A, no other dependencies) becomes `ready` at version 2 with the
promotion history row. -/
theorem c7_witness :
    ∃ db', transition c7_wdb 1 TaskStatus.done Option.none ("pm") Kwargs.none 0 =
        Except.ok db' ∧
      findTask db' c7_wB.id =
        some { c7_wB with status := TaskStatus.ready, version := c7_wB.version + 1 } ∧
      (⟨c7_wB.id, "waiting", "ready", "system",
        some ("All dependencies met (triggered by task " ++ toString 1 ++ ")")⟩ :
          TaskHistory) ∈ db'.history :=
  c7_done_promotes_waiting_dependents c7_wdb 1 c7_wA c7_wB Option.none ("pm")
    Kwargs.none 0 (by decide) rfl rfl (by decide) rfl (by decide) (by decide)

/-- Worker status in the registry (utils/worker_registry.py). -/
inductive RWorkerStatus where
  | idle
  | busy
  | offline
deriving DecidableEq

/-- An ephemeral worker record in the registry. -/
structure RWorker where
  id : Nat
  status : RWorkerStatus
  current_task : Option Nat
deriving DecidableEq

/-- `WorkerRegistry.set_idle`: status `idle`, current task cleared. -/
def set_idle (reg : List RWorker) (wid : Nat) : List RWorker :=
  reg.map (fun w => if w.id == wid then
    { w with status := RWorkerStatus.idle, current_task := Option.none } else w)

/-- `WorkerRegistry.set_busy`: status `busy`, current task recorded. -/
def set_busy (reg : List RWorker) (wid tid : Nat) : List RWorker :=
  reg.map (fun w => if w.id == wid then
    { w with status := RWorkerStatus.busy, current_task := some tid } else w)

/-- The state the results loop touches: the database session plus the worker
registry. -/
structure SysState where
  db : DB
  registry : List RWorker
deriving DecidableEq

/-- A message consumed from `tasks:results`.  `success` and `passed` stand
for the string comparisons `result.get("success") == "true"` and
`result.get("passed") == "true"`; `worker_id = none` models the empty
(falsy) `worker_id` string. -/
structure ResultMessage where
  message_id : String
  task_id : Nat
  rtype : String
  success : Bool
  passed : Bool
  error_message : String
  feedback : String
  worker_id : Option Nat
deriving DecidableEq

/-- `PMOrchestrator._assign_reviewer` (orchestrator.py lines 175-193): pick
the first idle worker different from the executor; transition the task to
`review` with that reviewer and mark it busy; otherwise do nothing. -/
def assign_reviewer (now : Int) (st : SysState) (task : Task)
    (executorId : Option Nat) : Except String SysState :=
  let available := st.registry.filter (fun w =>
    decide (some w.id ≠ executorId) && decide (w.status = RWorkerStatus.idle))
  match available with
  | [] => Except.ok st
  | reviewer :: _ =>
      match transition st.db task.id TaskStatus.review (some ("Assigned reviewer"))
        "pm" ⟨Option.none, some reviewer.id⟩ now with
      | Except.ok db' =>
          Except.ok ⟨db', set_busy st.registry reviewer.id task.id⟩
      | Except.error e => Except.error e

/-- `PMOrchestrator._process_result` (orchestrator.py lines 120-173).  A
missing task is silently ignored (`return`).  A `ValueError` raised by the
state machine propagates (`Except.error`). -/
def process_result (now : Int) (st : SysState) (msg : ResultMessage) :
    Except String SysState :=
  match findTask st.db msg.task_id with
  | none => Except.ok st
  | some task =>
      if msg.rtype == "execution" then
        if msg.success then
          assign_reviewer now st task msg.worker_id
        else
          match transition st.db task.id TaskStatus.rejected
            (some ("Execution failed: " ++ msg.error_message)) "pm" Kwargs.none now with
          | Except.ok db' =>
              Except.ok ⟨db',
                match msg.worker_id with
                | some w => set_idle st.registry w
                | none => st.registry⟩
          | Except.error e => Except.error e
      else if msg.rtype == "qa" then
        (if msg.passed then
          transition st.db task.id TaskStatus.done (some ("QA passed")) "pm"
            Kwargs.none now
        else
          transition st.db task.id TaskStatus.rejected
            (some ("QA failed: " ++ msg.feedback)) "pm" Kwargs.none now).map
        (fun db' => ⟨db',
          match msg.worker_id with
          | some w => set_idle st.registry w
          | none => st.registry⟩)
      else
        Except.ok st

/-- The per-message body of `PMOrchestrator._results_loop` (orchestrator.py
lines 102-114): process the message in its own transaction — on error the
transaction is rolled back (the state reverts) and the error is logged —
then acknowledge the message unconditionally (the `acknowledge` call sits
after the `try`/`except` block, inside the `for` loop). -/
def results_step (now : Int) (acc : SysState × List String) (msg : ResultMessage) :
    SysState × List String :=
  let st' := match process_result now acc.1 msg with
    | Except.ok s => s
    | Except.error _ => acc.1
  (st', acc.2 ++ [msg.message_id])

/-- The full pass of `_results_loop` over one consumed batch. -/
def results_loop_step (now : Int) (st : SysState) (msgs : List ResultMessage) :
    SysState × List String :=
  msgs.foldl (results_step now) (st, [])

/-- A `ready` task whose rejection result will raise `InvalidTransition`. -/
def c4_task : Task :=
  ⟨1, 10, "T", TaskPriority.medium, TaskStatus.ready, 1, [],
   Option.none, Option.none, Option.none, Option.none, Option.none⟩

/-- State for the C4 counterexample. -/
def c4_st : SysState := ⟨⟨[c4_task], [], [], []⟩, []⟩

/-- An execution-failure result for `c4_task`: processing it attempts
`ready → rejected`, which the state machine refuses. -/
def c4_msg : ResultMessage := ⟨"m1", 1, "execution", false, false, "boom", "", some 7⟩

/-- Counterexample to C4 as stated: processing `c4_msg` raises (the
`ready → rejected` transition is invalid), yet the results loop still
acknowledges the message; nothing was committed (the state is unchanged),
so the ack does not wait for a commit either. -/
theorem c4_failed_message_still_acked :
    process_result 0 c4_st c4_msg =
      Except.error ("Invalid transition: " ++ statusValue TaskStatus.ready ++
        " -> " ++ statusValue TaskStatus.rejected) ∧
    results_loop_step 0 c4_st [c4_msg] = (c4_st, ["m1"]) := by
  refine ⟨rfl, rfl⟩

/-- Amended C4: the results loop acknowledges every consumed message,
whether or not its processing raised; a failure only rolls back that
message's transaction and is logged. -/
theorem c4_all_messages_acked (now : Int) (st : SysState)
    (msgs : List ResultMessage) :
    (results_loop_step now st msgs).2 = msgs.map (fun m => m.message_id) := by
  unfold results_loop_step
  have aux : ∀ (ms : List ResultMessage) (p : SysState × List String),
      (ms.foldl (results_step now) p).2 = p.2 ++ ms.map (fun m => m.message_id) := by
    intro ms
    induction ms with
    | nil => intro p; simp
    | cons m ms ih =>
        intro p
        rw [List.foldl_cons, ih]
        show (results_step now p m).2 ++ _ = _
        simp [results_step]
  rw [aux]
  simp

/-- Claim C10: a result message whose `task_id` matches no task row is
silently dropped: `_process_result` returns before touching any task or
worker, and the loop still acknowledges the message. -/
theorem c10_unknown_task_acked_no_change (now : Int) (st : SysState)
    (msg : ResultMessage) (h : findTask st.db msg.task_id = none) :
    process_result now st msg = Except.ok st ∧
    results_loop_step now st [msg] = (st, [msg.message_id]) := by
  have hp : process_result now st msg = Except.ok st := by
    unfold process_result
    rw [h]
  refine ⟨hp, ?_⟩
  unfold results_loop_step
  simp [List.foldl, results_step, hp]

/-- Empty system state for the C10 witness. -/
def c10_wst : SysState := ⟨⟨[], [], [], []⟩, []⟩

/-- A result message naming a task id (42) that does not exist. -/
def c10_wmsg : ResultMessage :=
  ⟨"m9", 42, "execution", true, false, "", "", Option.none⟩

/-- Witness for C10 at a concrete input. -/
theorem c10_witness :
    process_result 0 c10_wst c10_wmsg = Except.ok c10_wst ∧
    results_loop_step 0 c10_wst [c10_wmsg] = (c10_wst, ["m9"]) :=
  c10_unknown_task_acked_no_change 0 c10_wst c10_wmsg rfl

/-- The canonical payload `json.dumps({prompt, nonce, timestamp},
sort_keys=True)` built identically by `PromptSigner.sign` (lines 19-23) and
`PromptSigner.verify` (lines 51-55); keys serialize in sorted order
nonce < prompt < timestamp. -/
def canonical_payload (prompt nonce : String) (timestamp : Int) : String :=
  "\x7b\"nonce\": \"" ++ nonce ++ "\", \"prompt\": \"" ++ prompt ++
    "\", \"timestamp\": " ++ toString timestamp ++ "\x7d"

/-- A signed-prompt dict; each required key may be absent (the Python value
is a plain dict). -/
structure SignedPrompt where
  prompt : Option String
  signature : Option String
  nonce : Option String
  timestamp : Option Int
deriving DecidableEq

/-- `PromptSigner.sign` (prompt_security.py lines 14-36).  The fresh uuid4
nonce and the `int(time.time())` signing instant are threaded as
parameters; `mac` stands for hex-encoded HMAC-SHA256 with the given
secret. -/
def sign (mac : String → String → String) (secret : String)
    (prompt nonce : String) (now : Int) : SignedPrompt :=
  ⟨some prompt, some (mac secret (canonical_payload prompt nonce now)),
   some nonce, some now⟩

/-- `PromptSigner.verify` (lines 38-63): check the four required fields are
present, reject when `age > max_age` or `age < 0`, then recompute the MAC
over the canonical payload and compare (`hmac.compare_digest` is equality
of the two hex strings). -/
def verify (mac : String → String → String) (secret : String)
    (sp : SignedPrompt) (now : Int) (max_age : Int) : Bool :=
  match sp.prompt, sp.signature, sp.nonce, sp.timestamp with
  | some p, some sig, some n, some ts =>
      let age := now - ts
      if age > max_age ∨ age < 0 then false
      else mac secret (canonical_payload p n ts) == sig
  | _, _, _, _ => false

/-- `PromptSigner.extract_prompt` (lines 65-69): verify with the default
`max_age = 3600` and return the prompt, else `None`. -/
def extract_prompt (mac : String → String → String) (secret : String)
    (sp : SignedPrompt) (now : Int) : Option String :=
  if verify mac secret sp now 3600 then sp.prompt else none

/-- Claim C9: signing then verifying with the same secret succeeds whenever
verification happens at or after signing time and within `max_age` seconds,
and `extract_prompt` then returns exactly the signed prompt (within its
default 3600-second window); `extract_prompt` returns `none` whenever
verification fails, and verification fails on a missing required field, on
an envelope older than `max_age`, and on a timestamp in the future. -/
theorem c9_sign_verify_roundtrip
    (mac : String → String → String) (secret prompt nonce : String)
    (tsign now max_age : Int)
    (h1 : tsign ≤ now) (h2 : now - tsign ≤ max_age) (h3 : now - tsign ≤ 3600) :
    (verify mac secret (sign mac secret prompt nonce tsign) now max_age = true ∧
      extract_prompt mac secret (sign mac secret prompt nonce tsign) now =
        some prompt) ∧
    (∀ sp n2, verify mac secret sp n2 3600 = false →
      extract_prompt mac secret sp n2 = none) ∧
    (∀ sp n2 ma, sp.signature = none → verify mac secret sp n2 ma = false) ∧
    (∀ p2 nn t2 n2 ma, n2 - t2 > ma →
      verify mac secret (sign mac secret p2 nn t2) n2 ma = false) ∧
    (∀ p2 nn t2 n2 ma, n2 < t2 →
      verify mac secret (sign mac secret p2 nn t2) n2 ma = false) := by
  have hver : ∀ ma : Int, now - tsign ≤ ma →
      verify mac secret (sign mac secret prompt nonce tsign) now ma = true := by
    intro ma hma
    show (if now - tsign > ma ∨ now - tsign < 0 then false
      else mac secret (canonical_payload prompt nonce tsign) ==
        mac secret (canonical_payload prompt nonce tsign)) = true
    rw [if_neg (by omega)]
    simp
  refine ⟨⟨hver max_age h2, ?_⟩, ?_, ?_, ?_, ?_⟩
  · unfold extract_prompt
    rw [hver 3600 h3]
    simp [sign]
  · intro sp n2 hv
    unfold extract_prompt
    rw [hv]
    simp
  · intro sp n2 ma hs
    rcases sp with ⟨p, s, n, t⟩
    have hs' : s = none := hs
    subst hs'
    cases p <;> cases n <;> cases t <;> rfl
  · intro p2 nn t2 n2 ma hgt
    show (if n2 - t2 > ma ∨ n2 - t2 < 0 then false
      else mac secret (canonical_payload p2 nn t2) ==
        mac secret (canonical_payload p2 nn t2)) = false
    rw [if_pos (Or.inl hgt)]
  · intro p2 nn t2 n2 ma hlt
    show (if n2 - t2 > ma ∨ n2 - t2 < 0 then false
      else mac secret (canonical_payload p2 nn t2) ==
        mac secret (canonical_payload p2 nn t2)) = false
    rw [if_pos (Or.inr (by omega))]

/-- A concrete stand-in MAC for the C9 witness: any deterministic function
of secret and payload exercises the round trip. -/
def c9_wmac (secret payload : String) : String := secret ++ ":" ++ payload

/-- Witness for C9 at a concrete input: signing at time 100 and verifying at
time 200 with the same secret succeeds and extraction returns the prompt. -/
theorem c9_witness :
    verify c9_wmac ("k") (sign c9_wmac ("k") ("hello") ("n0") 100) 200 3600 = true ∧
    extract_prompt c9_wmac ("k") (sign c9_wmac ("k") ("hello") ("n0") 100) 200 =
      some ("hello") :=
  (c9_sign_verify_roundtrip c9_wmac ("k") ("hello") ("n0") 100 200 3600
    (by decide) (by decide) (by decide)).1

/-- A JSON value, for the consumer's `json.loads` of prompt payloads:
strings, integers, and objects cover the payload shapes the pipeline
produces. -/
inductive JVal where
  | jstr (s : String)
  | jnum (n : Int)
  | jobj (fields : List (String × JVal))

/-- Skip JSON whitespace. -/
def skipWs : List Char → List Char
  | c :: rest =>
      if c = ' ' ∨ c = Char.ofNat 10 ∨ c = Char.ofNat 9 ∨ c = Char.ofNat 13 then
        skipWs rest
      else c :: rest
  | [] => []

/-- Parse the body of a JSON string after the opening quote (no escape
sequences; the payloads in scope contain none). -/
def parseStringBody : List Char → Option (String × List Char)
  | [] => none
  | c :: rest =>
      if c = '"' then some ("", rest)
      else
        match parseStringBody rest with
        | some (s, r) => some (String.mk (c :: s.data), r)
        | none => none

/-- Split a leading run of decimal digits. -/
def parseDigits : List Char → List Char × List Char
  | [] => ([], [])
  | c :: rest =>
      if c.isDigit then
        let p := parseDigits rest
        (c :: p.1, p.2)
      else ([], c :: rest)

/-- Decimal digits to a natural number. -/
def digitsToNat (ds : List Char) : Nat :=
  ds.foldl (fun acc c => acc * 10 + (c.toNat - 48)) 0

/-- Parse a JSON integer. -/
def parseNum : List Char → Option (Int × List Char)
  | [] => none
  | c :: rest =>
      if c = '-' then
        match parseDigits rest with
        | ([], _) => none
        | (ds, r) => some (-(digitsToNat ds : Int), r)
      else if c.isDigit then
        match parseDigits (c :: rest) with
        | (ds, r) => some ((digitsToNat ds : Int), r)
      else none

mutual

/-- Parse one JSON value (fuel-bounded recursion). -/
def parseVal : Nat → List Char → Option (JVal × List Char)
  | 0, _ => none
  | fuel + 1, cs =>
      match skipWs cs with
      | [] => none
      | c :: rest =>
          if c = '"' then
            match parseStringBody rest with
            | some (s, r) => some (JVal.jstr s, r)
            | none => none
          else if c = Char.ofNat 123 then
            match skipWs rest with
            | c2 :: rest2 =>
                if c2 = Char.ofNat 125 then some (JVal.jobj [], rest2)
                else
                  match parseFields fuel (c2 :: rest2) with
                  | some (fs, r) => some (JVal.jobj fs, r)
                  | none => none
            | [] => none
          else
            match parseNum (c :: rest) with
            | some (n, r) => some (JVal.jnum n, r)
            | none => none

/-- Parse the `"key": value` fields of a JSON object up to its closing
brace. -/
def parseFields : Nat → List Char → Option (List (String × JVal) × List Char)
  | 0, _ => none
  | fuel + 1, cs =>
      match skipWs cs with
      | c :: rest =>
          if c = '"' then
            match parseStringBody rest with
            | some (key, r1) =>
                match skipWs r1 with
                | c2 :: r2 =>
                    if c2 = ':' then
                      match parseVal fuel r2 with
                      | some (v, r3) =>
                          match skipWs r3 with
                          | c3 :: r4 =>
                              if c3 = ',' then
                                match parseFields fuel r4 with
                                | some (fs, r5) => some ((key, v) :: fs, r5)
                                | none => none
                              else if c3 = Char.ofNat 125 then
                                some ([(key, v)], r4)
                              else none
                          | [] => none
                      | none => none
                    else none
                | [] => none
            | none => none
          else none
      | [] => none

end

/-- The consumer's `json.loads` on a payload string: parse one value and
require only trailing whitespace; `none` models `json.JSONDecodeError`. -/
def json_loads (s : String) : Option JVal :=
  match parseVal (s.length + 1) s.data with
  | some (v, rest) => if skipWs rest = [] then some v else none
  | none => none

/-- `data.get(key)` on the consumed stream message dict. -/
def lookupField (data : List (String × String)) (key : String) : Option String :=
  match data.find? (fun kv => kv.1 == key) with
  | some kv => some kv.2
  | none => none

/-- The prompt extraction of `TaskConsumer._process_task` applied to the raw
`worker_prompt` string (consumer.py lines 68-72): JSON-decode it; if the
result is a dict take its `prompt` key (defaulting to the raw string),
otherwise use the raw string. -/
def consumerPromptRaw (prompt_raw : String) : JVal :=
  match json_loads prompt_raw with
  | some (JVal.jobj fields) =>
      match fields.find? (fun kv => kv.1 == "prompt") with
      | some kv => kv.2
      | none => JVal.jstr prompt_raw
  | some _ => JVal.jstr prompt_raw
  | none => JVal.jstr prompt_raw

/-- The prompt `TaskConsumer._process_task` passes to the executor
(consumer.py lines 64-75): read the raw `worker_prompt` field — defaulting
to the string `"{}"` — and extract from it.  No other field of the payload
is consulted; in particular `signed_worker_prompt` is never read and no
signature verification happens. -/
def consumerPrompt (data : List (String × String)) : JVal :=
  consumerPromptRaw ((lookupField data ("worker_prompt")).getD ("\x7b\x7d"))

/-- `ExecutionResult` from worker/src/executors/base.py, restricted to the
fields the consumer publishes. -/
structure ExecResult where
  success : Bool
  output_path : Option String
  error_message : Option String
deriving DecidableEq

/-- The fields of the result message `_process_task` publishes on
`tasks:results` (consumer.py lines 77-98): the executor's outcome on
success, or `success="false"` with the exception text when the executor
raised. -/
def resultFields (task_id worker_id : String) (r : Except String ExecResult) :
    List (String × String) :=
  match r with
  | Except.ok r =>
      [("task_id", task_id), ("worker_id", worker_id), ("type", "execution"),
       ("success", if r.success then ("true") else ("false")),
       ("output_path", r.output_path.getD ("")),
       ("error_message", r.error_message.getD (""))]
  | Except.error e =>
      [("task_id", task_id), ("worker_id", worker_id), ("type", "execution"),
       ("success", "false"), ("error_message", e)]

/-- `TaskConsumer._process_task` (consumer.py lines 58-104): extract the
prompt, run the executor, publish the result message, and ack the consumed
message id regardless of outcome (the `finally` block).  Returns the
published message and the acknowledged ids. -/
def process_task (msg_id : String) (data : List (String × String))
    (executor : JVal → Except String ExecResult) (worker_id : String) :
    StreamMessage × List String :=
  (⟨"tasks:results",
    resultFields ((lookupField data ("task_id")).getD ("")) worker_id
      (executor (consumerPrompt data))⟩,
   [msg_id])

/-- A concrete signed envelope as `_on_queued` would attach it (the JSON
encoding of `{prompt, signature, nonce, timestamp}`). -/
def c8_env : String :=
  "\x7b\"prompt\": \"Write code\", \"signature\": \"ab12\", \"nonce\": \"n1\", \"timestamp\": 100\x7d"

/-- A consumed payload that carries its prompt only inside a signed
envelope, as the state machine publishes it. -/
def c8_data : List (String × String) :=
  [("task_id", "t1"), ("signed_worker_prompt", c8_env)]

/-- An executor that succeeds on whatever prompt it is given. -/
def c8_exec (_p : JVal) : Except String ExecResult :=
  Except.ok ⟨true, Option.none, Option.none⟩

/-- Counterexample to C8 as stated: on a payload whose prompt is carried in
`signed_worker_prompt`, the consumer neither verifies the envelope nor uses
its prompt — it executes the fallback string `"{}"` (the default for the
absent `worker_prompt` field) — and it publishes the executor's success
result, not a failure with error "prompt signature invalid". -/
theorem c8_envelope_ignored_counterexample :
    consumerPrompt c8_data = JVal.jstr ("\x7b\x7d") ∧
    JVal.jstr ("\x7b\x7d") ≠ JVal.jstr ("Write code") ∧
    (process_task ("m1") c8_data c8_exec ("w1")).1 =
      ⟨"tasks:results",
        [("task_id", "t1"), ("worker_id", "w1"), ("type", "execution"),
         ("success", "true"), ("output_path", ""), ("error_message", "")]⟩ := by
  refine ⟨rfl, ?_, rfl⟩
  intro h
  have h2 : ("\x7b\x7d" : String) = "Write code" := by injection h
  exact absurd h2 (by decide)

/-- Amended C8: the consumer ignores signed envelopes entirely.  The prompt
it executes and the result it publishes depend only on the raw
`worker_prompt` and `task_id` fields; adding (or changing) a
`signed_worker_prompt` field changes nothing, and no
"prompt signature invalid" failure path exists. -/
theorem c8_prompt_independent_of_envelope (data : List (String × String))
    (e msg_id : String) (executor : JVal → Except String ExecResult)
    (wid : String) :
    consumerPrompt (("signed_worker_prompt", e) :: data) = consumerPrompt data ∧
    process_task msg_id (("signed_worker_prompt", e) :: data) executor wid =
      process_task msg_id data executor wid := by
  have hlook : ∀ key : String, key ≠ "signed_worker_prompt" →
      lookupField (("signed_worker_prompt", e) :: data) key =
        lookupField data key := by
    intro key hk
    have hne : (("signed_worker_prompt" : String) == key) = false := by
      simp only [beq_eq_false_iff_ne]
      exact fun hcontra => hk hcontra.symm
    unfold lookupField
    simp [List.find?, hne]
  have hcp : consumerPrompt (("signed_worker_prompt", e) :: data) =
      consumerPrompt data := by
    unfold consumerPrompt
    rw [hlook ("worker_prompt") (by decide)]
  refine ⟨hcp, ?_⟩
  unfold process_task
  rw [hcp, hlook ("task_id") (by decide)]

end BSNexus
